import Mathlib

/-!
Verification of the pharmacy data-cleaning pipeline.

Shallow embedding of the text-parsing core of data_cleaning.py
(the numeric locale parser, the purchase-ledger parser and the stock
parser) and of the outlier classification and handling logic in
handler.py. Strings are lists of characters; real-valued columns are
rationals; missing values (Python None, pandas NaN) are Option.
-/

set_option maxRecDepth 4000

set_option allowUnsafeReducibility true
attribute [semireducible] Rat.add Rat.mul Rat.inv Rat.sub Rat.div Rat.neg Rat.blt
  Rat.ofScientific

abbrev Str := List Char

/-- Python whitespace class, as used by str.strip and the regex class \s. -/
def isWs (c : Char) : Bool :=
  c = ' ' || c = '\t' || c = '\n' || c = '\r' || c = '\x0b' || c = '\x0c'

/-- Python str.lstrip with no argument. -/
def lstrip (s : Str) : Str := s.dropWhile isWs

/-- Python str.rstrip with no argument. -/
def rstrip : Str → Str
  | [] => []
  | c :: t => if rstrip t = [] && isWs c then [] else c :: rstrip t

/-- Python str.strip with no argument. -/
def strip (s : Str) : Str := rstrip (lstrip s)

/-- Whether the second string begins with the first (Python str.startswith). -/
def leadsWith : Str → Str → Bool
  | [], _ => true
  | _ :: _, [] => false
  | p :: ps, c :: cs => p == c && leadsWith ps cs

/-- Split a string into maximal runs of non-whitespace characters.
Models re.split of one-or-more whitespace applied to a stripped string. -/
def tokAux : Str → Str → List Str
  | [], acc => if acc = [] then [] else [acc.reverse]
  | c :: t, acc =>
    if isWs c then
      if acc = [] then tokAux t [] else acc.reverse :: tokAux t []
    else tokAux t (c :: acc)

def tokenize (s : Str) : List Str := tokAux s []

/-- Python str.split on a dot: groups between dots, empty groups kept. -/
def splitDot : Str → List Str
  | [] => [[]]
  | c :: t =>
    if c = '.' then [] :: splitDot t
    else
      match splitDot t with
      | g :: gs => (c :: g) :: gs
      | [] => [[c]]

/-- Value of a digit string read in base 10. -/
def digitsVal (s : Str) : Nat := s.foldl (fun n c => 10 * n + (c.toNat - 48)) 0

/-- Python float() on an unsigned residual string drawn from digits,
dots and minus signs: digits, an optional dot and fraction digits,
with at least one digit present overall. -/
def pyFloatAux (s : Str) : Option Rat :=
  let ip := s.takeWhile Char.isDigit
  match s.drop ip.length with
  | [] => if ip.isEmpty then none else some (digitsVal ip : Rat)
  | '.' :: fp =>
    if fp.all Char.isDigit && (!ip.isEmpty || !fp.isEmpty) then
      some ((digitsVal ip : Rat) + (digitsVal fp : Rat) / ((10 : Rat) ^ fp.length))
    else none
  | _ => none

/-- Python float() restricted to the character set that can survive
the cleaning step: an optional leading minus sign, then pyFloatAux. -/
def pyFloat : Str → Option Rat
  | '-' :: t => (pyFloatAux t).map (fun x => -x)
  | s => pyFloatAux s

/-- Keep only digits, dots, commas and minus signs
(the re.sub step of to_float_id). -/
def keepNum (s : Str) : Str :=
  s.filter (fun c => c.isDigit || c = '.' || c = ',' || c = '-')

/-- Comma branch of to_float_id: delete every dot, then turn every
comma into a dot. -/
def commaForm (s : Str) : Str :=
  (s.filter (fun c => c != '.')).map (fun c => if c = ',' then '.' else c)

/-- No-comma branch of to_float_id: with more than one dot, join all
groups but the last and keep the last group as the fractional part. -/
def dotForm (s : Str) : Str :=
  if (splitDot s).length > 2 then
    (splitDot s).dropLast.flatten ++ '.' :: (splitDot s).getLastD []
  else s

def normNum (s : Str) : Str := if s.contains ',' then commaForm s else dotForm s

/-- to_float_id from data_cleaning.py: Indonesian-locale numeric string
to a number, 0 on empty, missing or unconvertible input. -/
def to_float_id : Option Str → Rat
  | none => 0
  | some ns =>
    if strip ns = [] then 0
    else if keepNum (strip ns) = [] then 0
    else
      match pyFloat (normNum (keepNum (strip ns))) with
      | some x => x
      | none => 0

example : to_float_id (some "1.234,50".toList) = 1234.50 := by decide
example : to_float_id (some "2,00".toList) = 2 := by decide
example : to_float_id (some "1.234.567".toList) = 1234.567 := by decide
example : to_float_id (some "abc".toList) = 0 := by decide
example : to_float_id (some "  ".toList) = 0 := by decide
example : to_float_id (some "-5".toList) = -5 := by decide
example : to_float_id (some "1,2,3".toList) = 0 := by decide

/-- The product-code pattern: re.match of an A followed by one or more
digits, at the start of the string. -/
def isCodePat : Str → Bool
  | a :: b :: _ => a == 'A' && b.isDigit
  | _ => false

/-- One regex match of a decimal-comma number (a digit, then digits or
dots, then a comma, then one or more digits) anchored at the start of
the string: the matched token and the rest of the string. -/
def numTok : Str → Option (Str × Str)
  | [] => none
  | c :: t =>
    if c.isDigit then
      let run := t.takeWhile (fun x => x.isDigit || x = '.')
      match t.drop run.length with
      | ',' :: u =>
        let ds := u.takeWhile Char.isDigit
        if ds.isEmpty then none
        else some (c :: run ++ ',' :: ds, u.drop ds.length)
      | _ => none
    else none

/-- Left-to-right scan collecting non-overlapping decimal-comma number
tokens. The fuel argument bounds the number of scan steps; each step
consumes at least one character, so the length of the string suffices. -/
def numScan : Nat → Str → List Str
  | 0, _ => []
  | _ + 1, [] => []
  | fuel + 1, c :: t =>
    match numTok (c :: t) with
    | some (tok, rest) => tok :: numScan fuel rest
    | none => numScan fuel t

/-- re.findall of the decimal-comma number pattern over a string. -/
def findNums (s : Str) : List Str := numScan s.length s

example : findNums "1,00 2,00".toList = ["1,00".toList, "2,00".toList] := by decide
example : findNums "12.34.56,78".toList = ["12.34.56,78".toList] := by decide
example : findNums "1,2,3".toList = ["1,2".toList] := by decide
example : findNums "abc 7".toList = [] := by decide

/-- Python str.find scanning from position i. -/
def pyFindAux (pat : Str) : Str → Nat → Int
  | [], i => if leadsWith pat [] then (i : Int) else -1
  | c :: t, i => if leadsWith pat (c :: t) then (i : Int) else pyFindAux pat t (i + 1)

/-- Python str.find: index of the first occurrence of the second string
inside the first, or -1 when absent. -/
def pyFind (hay pat : Str) : Int := pyFindAux pat hay 0

example : pyFind "01-02-23  TRX1  1,00 2,00".toList "1,00".toList = 16 := by decide

/-- The transaction-line regex of parse_pembelian_tsv applied to the
left-stripped line: two digits, a dash, two digits, a dash, two digits,
then whitespace, a non-whitespace transaction id, whitespace, and the
remainder. Returns the date text, the id and the remainder. -/
def matchTrans : Str → Option (Str × Str × Str)
  | a :: b :: c :: d :: e :: f :: g :: h :: rest =>
    if a.isDigit && b.isDigit && (c == '-') && d.isDigit && e.isDigit && (f == '-')
        && g.isDigit && h.isDigit then
      let ws1 := rest.takeWhile isWs
      if ws1.isEmpty then none
      else
        let r1 := rest.drop ws1.length
        let tok := r1.takeWhile (fun x => !(isWs x))
        if tok.isEmpty then none
        else
          let r2 := r1.drop tok.length
          let ws2 := r2.takeWhile isWs
          if ws2.isEmpty then none
          else some ([a, b, c, d, e, f, g, h], tok, r2.drop ws2.length)
    else none
  | _ => none

example : matchTrans "01-02-23  TRX1  1,00 2,00".toList =
    some ("01-02-23".toList, "TRX1".toList, "1,00 2,00".toList) := by decide
example : matchTrans "01-02-23 TRX1".toList = none := by decide

/-- The parser state of parse_pembelian_tsv: the current product code,
name and unit, all initially missing. -/
structure Ctx where
  code : Option Str
  name : Option Str
  unit : Option Str
deriving DecidableEq

def initCtx : Ctx := ⟨none, none, none⟩

/-- One parsed transaction record of parse_pembelian_tsv. -/
structure PRecord where
  tanggal : Str
  no_transaksi : Str
  qty_msk : Rat
  nilai_msk : Rat
  qty_klr : Rat
  nilai_klr : Rat
  kode : Option Str
  nama_produk : Option Str
  unit : Option Str
deriving DecidableEq

/-- The product context read off a header line: first token is the code,
last token is the unit, the tokens between are the name; with two tokens
the second is the name; with one token the name is missing. -/
def headerCtxOf (stripped : Str) : Ctx :=
  let parts := tokenize stripped
  { code := some (parts.headD [])
    unit := some (parts.getLastD [])
    name :=
      if parts.length > 2 then some (List.intercalate [' '] ((parts.drop 1).dropLast))
      else if parts.length = 2 then some (parts.getD 1 [])
      else none }

/-- Effect of a header line on the context; with no tokens the line is
skipped and the context kept (the guard on parts in the source). -/
def headerApply (stripped : Str) (ctx : Ctx) : Ctx :=
  if tokenize stripped = [] then ctx else headerCtxOf stripped

/-- The count-based assignment of the extracted numbers to the four
numeric fields, in the branch order of the source: four numbers fill all
fields, two are split on the 60-column offset of the first token in the
left-stripped line, three fill the first three fields, one fills qty
in, and otherwise all fields stay zero. -/
def transFields (rawLs : Str) (nums : List Str) : Rat × Rat × Rat × Rat :=
  if nums.length = 4 then
    (to_float_id (some (nums.getD 0 [])), to_float_id (some (nums.getD 1 [])),
     to_float_id (some (nums.getD 2 [])), to_float_id (some (nums.getD 3 [])))
  else if nums.length = 2 then
    if pyFind rawLs (nums.getD 0 []) < 60 then
      (to_float_id (some (nums.getD 0 [])), to_float_id (some (nums.getD 1 [])), 0, 0)
    else
      (0, 0, to_float_id (some (nums.getD 0 [])), to_float_id (some (nums.getD 1 [])))
  else if nums.length = 3 then
    (to_float_id (some (nums.getD 0 [])), to_float_id (some (nums.getD 1 [])),
     to_float_id (some (nums.getD 2 [])), 0)
  else if nums.length = 1 then
    (to_float_id (some (nums.getD 0 [])), 0, 0, 0)
  else (0, 0, 0, 0)

/-- One line of parse_pembelian_tsv: skip blank lines and the KODE and
TANGGAL headers, fold header lines into the context, and emit a record
for transaction lines, stamped with the current context. -/
def stepLine (ctx : Ctx) (raw : Str) : Ctx × Option PRecord :=
  if strip raw = [] then (ctx, none)
  else if leadsWith "KODE".toList (strip raw) || leadsWith "TANGGAL".toList (strip raw) then
    (ctx, none)
  else if isCodePat (strip raw) then (headerApply (strip raw) ctx, none)
  else
    match matchTrans (lstrip raw) with
    | none => (ctx, none)
    | some (dt, tid, rem) =>
      let q := transFields (lstrip raw) (findNums rem)
      (ctx, some { tanggal := dt, no_transaksi := tid,
                   qty_msk := q.1, nilai_msk := q.2.1, qty_klr := q.2.2.1, nilai_klr := q.2.2.2,
                   kode := ctx.code, nama_produk := ctx.name, unit := ctx.unit })

/-- The line fold of parse_pembelian_tsv over the lines of the file. -/
def parseLines : Ctx → List Str → List PRecord
  | _, [] => []
  | ctx, l :: ls =>
    match stepLine ctx l with
    | (ctx2, some r) => r :: parseLines ctx2 ls
    | (ctx2, none) => parseLines ctx2 ls

/-- parse_pembelian_tsv from data_cleaning.py, over the list of input
lines (newlines already removed). -/
def parse_pembelian_tsv (lines : List Str) : List PRecord := parseLines initCtx lines

/-- The context after folding a list of lines. -/
def ctxFold : Ctx → List Str → Ctx
  | ctx, [] => ctx
  | ctx, l :: ls => ctxFold (stepLine ctx l).1 ls

example : parse_pembelian_tsv ["01-02-23  TRX1  1,00 2,00".toList] =
    [{ tanggal := "01-02-23".toList, no_transaksi := "TRX1".toList,
       qty_msk := 1, nilai_msk := 2, qty_klr := 0, nilai_klr := 0,
       kode := none, nama_produk := none, unit := none }] := by decide

example : parse_pembelian_tsv ["A123 PARACETAMOL 500MG STRIP".toList,
    "01-02-23  TRX1  1,00 2,00".toList] =
    [{ tanggal := "01-02-23".toList, no_transaksi := "TRX1".toList,
       qty_msk := 1, nilai_msk := 2, qty_klr := 0, nilai_klr := 0,
       kode := some "A123".toList, nama_produk := some "PARACETAMOL 500MG".toList,
       unit := some "STRIP".toList }] := by decide

/-- One parsed stock record of parse_stok_tsv. -/
structure SRecord where
  kode : Str
  nama_produk : Str
  lokasi : Str
  qty_stok : Rat
  unit : Str
deriving DecidableEq

/-- Outcome of parse_stok_tsv on one line: the line is skipped, a record
is emitted, or the fixed-from-the-right indexing runs off the front of
the token list and the source raises an unhandled index error. -/
inductive StokResult where
  | skip : StokResult
  | emit : SRecord → StokResult
  | err : StokResult
deriving DecidableEq

/-- One line of parse_stok_tsv: skip blank lines, KODE headers and lines
whose first token is not a product code; otherwise read unit, quantity
and location from the right end of the token list and join the tokens
between the code and the location as the name. Fewer than three tokens
makes the negative indexing of the source fail. -/
def parse_stok_line (line : Str) : StokResult :=
  if strip line = [] then .skip
  else if leadsWith "KODE".toList (strip line) then .skip
  else
    let parts := tokenize (strip line)
    if !(isCodePat (parts.headD [])) then .skip
    else if parts.length < 3 then .err
    else .emit {
      kode := parts.headD [],
      unit := parts.getLastD [],
      qty_stok := to_float_id (some (parts.getD (parts.length - 2) [])),
      lokasi := parts.getD (parts.length - 3) [],
      nama_produk := List.intercalate [' '] ((parts.drop 1).take (parts.length - 4)) }

example : parse_stok_line "A001 Paracetamol GudangA 10,00 BTL".toList =
    .emit { kode := "A001".toList, nama_produk := "Paracetamol".toList,
            lokasi := "GudangA".toList, qty_stok := 10, unit := "BTL".toList } := by decide
example : parse_stok_line "A001 GudangA 10,00 BTL".toList =
    .emit { kode := "A001".toList, nama_produk := [], lokasi := "GudangA".toList,
            qty_stok := 10, unit := "BTL".toList } := by decide
example : parse_stok_line "A001 BTL".toList = .err := by decide
example : parse_stok_line "KODE NAMA".toList = .skip := by decide

/-- One row of the transaction table as consumed by handler.py: its
pandas index label and the columns the classifier reads. -/
structure Row where
  idx : Nat
  qty_klr : Rat
  nilai_klr : Rat
  kode : Option Str
  unit : Option Str
deriving DecidableEq

/-- Price per unit of a row: value out over quantity out, undefined when
the quantity is zero (the replace of 0 by NaN before the division). -/
def priceOf (r : Row) : Option Rat :=
  if r.qty_klr = 0 then none else some (r.nilai_klr / r.qty_klr)

/-- Insert into a sorted list of rationals. -/
def insSorted (x : Rat) : List Rat → List Rat
  | [] => [x]
  | y :: t => if x ≤ y then x :: y :: t else y :: insSorted x t

def sortQ (l : List Rat) : List Rat := l.foldr insSorted []

/-- Median of a list of rationals, the pandas convention: middle element
of the sorted list for odd length, mean of the two middle elements for
even length, undefined for the empty list. -/
def medianQ (l : List Rat) : Option Rat :=
  let s := sortQ l
  if s.length = 0 then none
  else if s.length % 2 = 1 then some (s.getD (s.length / 2) 0)
  else some ((s.getD (s.length / 2 - 1) 0 + s.getD (s.length / 2) 0) / 2)

example : medianQ [3, 1, 2] = some 2 := by decide
example : medianQ [1, 2] = some (3/2) := by decide
example : medianQ [] = none := by decide

def countOcc (l : List Str) (x : Str) : Nat := (l.filter (fun y => y == x)).length

/-- Most frequent element of a list of strings: the first element whose
count of occurrences attains the maximum, or none for the empty list
(the value_counts and idxmax of typical_unit_per_code, with first
occurrence as the tie-break). -/
def mostCommon (l : List Str) : Option Str :=
  match l with
  | [] => none
  | _ => l.find? (fun x => countOcc l x == (l.map (countOcc l)).foldr Nat.max 0)

example : mostCommon ["a".toList, "b".toList, "b".toList] = some "b".toList := by decide
example : mostCommon [] = none := by decide

/-- typical_unit_per_code from handler.py, read at one code: the most
common unit, missing units dropped, over the rows of that code. -/
def typical_unit_per_code (df : List Row) : Option Str → Option Str
  | none => none
  | some c => mostCommon ((df.filter (fun r => r.kode == some c)).filterMap (fun r => r.unit))

/-- The grouped median price per unit joined at one code: median over
the defined prices of the rows of that code of the whole table, missing
for a missing code (the NaN key of the groupby join). -/
def medPriceFor (df : List Row) : Option Str → Option Rat
  | none => none
  | some c => medianQ ((df.filter (fun r => r.kode == some c)).filterMap priceOf)

/-- A pandas comparison of a ratio column against a bound: false on a
missing value. -/
def optLt (o : Option Rat) (c : Rat) : Bool :=
  match o with
  | some x => decide (x < c)
  | none => false

def optGt (o : Option Rat) (c : Rat) : Bool :=
  match o with
  | some x => decide (c < x)
  | none => false

/-- The pandas inequality of the unit column against the typical unit:
true unless both are present and equal (NaN compares unequal to
everything, NaN included). -/
def pdNe (a b : Option Str) : Bool :=
  match a, b with
  | some x, some y => x != y
  | _, _ => true

/-- One classification row of classify_outliers. -/
structure CRow where
  idx : Nat
  qty_klr : Rat
  nilai_klr : Rat
  kode : Option Str
  unit : Option Str
  price_per_unit : Option Rat
  median_price_per_unit : Option Rat
  price_ratio : Option Rat
  typical_unit : Option Str
  is_error : Bool
deriving DecidableEq

/-- The derived columns classify_outliers adds to one flagged row. -/
def mkCRow (df : List Row) (r : Row) : CRow :=
  let ppu := priceOf r
  let med := medPriceFor df r.kode
  let ratio :=
    match ppu, med with
    | some p, some m => some (p / m)
    | _, _ => none
  let tu := typical_unit_per_code df r.kode
  { idx := r.idx, qty_klr := r.qty_klr, nilai_klr := r.nilai_klr, kode := r.kode,
    unit := r.unit, price_per_unit := ppu, median_price_per_unit := med,
    price_ratio := ratio, typical_unit := tu,
    is_error := optLt ratio 0.5 || optGt ratio 1.5 || pdNe r.unit tu }

/-- classify_outliers from handler.py: restrict the table to the flagged
rows and add the derived price and unit columns; group statistics are
computed over the whole table. -/
def classify_outliers (df : List Row) (mask : List (Nat × Bool)) : List CRow :=
  (df.filter (fun r => (mask.lookup r.idx).getD false)).map (mkCRow df)

/-- The index labels the classification marks as errors. -/
def errIdxOf (cls : List (Nat × Bool)) : List Nat :=
  (cls.filter (fun p => p.2)).map Prod.fst

/-- handle_outliers from handler.py: drop the rows whose classification
is an error, drop the same labels from the outlier mask, and reindex
the mask to the cleaned table with false as the fill. The classification
is abstracted to its index labels and is_error column. -/
def handle_outliers (df : List Row) (mask : List (Nat × Bool)) (cls : List (Nat × Bool)) :
    List Row × List (Nat × Bool) :=
  let errs := errIdxOf cls
  let cleaned := df.filter (fun r => !(decide (r.idx ∈ errs)))
  let m1 := mask.filter (fun p => !(decide (p.1 ∈ errs)))
  (cleaned, cleaned.map (fun r => (r.idx, (m1.lookup r.idx).getD false)))

/-- Claim C2: in to_float_id, after stripping characters other than
digits, dots, commas and minus signs, a string with a comma has its dots
removed as thousands separators and its comma turned into the decimal
point, and a string without a comma but with more than one dot keeps
only the final dot-group as the fractional part; in particular the
string 1.234,50 parses to 1234.50 and 1.234.567 parses to 1234.567. -/
theorem claim_C2 :
    (∀ s0 : Str, (keepNum (strip s0)).contains ',' = true →
      to_float_id (some s0) = (pyFloat (commaForm (keepNum (strip s0)))).getD 0) ∧
    (∀ s0 : Str, (keepNum (strip s0)).contains ',' = false →
      (splitDot (keepNum (strip s0))).length > 2 →
      to_float_id (some s0) =
        (pyFloat ((splitDot (keepNum (strip s0))).dropLast.flatten ++
          '.' :: (splitDot (keepNum (strip s0))).getLastD [])).getD 0) ∧
    to_float_id (some "1.234,50".toList) = 1234.50 ∧
    to_float_id (some "1.234.567".toList) = 1234.567 := by
  refine ⟨?_, ?_, by decide, by decide⟩
  · intro s0 hc
    have h0 : keepNum (strip s0) ≠ [] := by
      intro h; rw [h] at hc; simp [List.contains] at hc
    have h1 : strip s0 ≠ [] := by
      intro h; apply h0; rw [h]; rfl
    simp only [to_float_id]
    rw [if_neg h1, if_neg h0, normNum, if_pos hc]
    cases h : pyFloat (commaForm (keepNum (strip s0))) <;> simp [h]
  · intro s0 hc hlen
    have h0 : keepNum (strip s0) ≠ [] := by
      intro h; rw [h] at hlen; simp [splitDot] at hlen
    have h1 : strip s0 ≠ [] := by
      intro h; apply h0; rw [h]; rfl
    simp only [to_float_id]
    rw [if_neg h1, if_neg h0, normNum, if_neg (by rw [hc]; exact Bool.false_ne_true),
      dotForm, if_pos hlen]
    cases h : pyFloat ((splitDot (keepNum (strip s0))).dropLast.flatten ++
      '.' :: (splitDot (keepNum (strip s0))).getLastD []) <;> simp [h]

theorem claim_C2_witness :
    ((keepNum (strip " 1,5".toList)).contains ',' = true ∧
      to_float_id (some " 1,5".toList) =
        (pyFloat (commaForm (keepNum (strip " 1,5".toList)))).getD 0) ∧
    ((keepNum (strip "1.2.3".toList)).contains ',' = false ∧
      (splitDot (keepNum (strip "1.2.3".toList))).length > 2 ∧
      to_float_id (some "1.2.3".toList) =
        (pyFloat ((splitDot (keepNum (strip "1.2.3".toList))).dropLast.flatten ++
          '.' :: (splitDot (keepNum (strip "1.2.3".toList))).getLastD [])).getD 0) :=
  ⟨⟨by decide, claim_C2.1 _ (by decide)⟩,
   ⟨by decide, by decide, claim_C2.2.1 _ (by decide) (by decide)⟩⟩

/-- Claim C7: to_float_id is total; missing input, input that strips to
the empty string, and input whose cleaned residue fails the final
numeric parse all return 0 instead of signalling an error. -/
theorem claim_C7 :
    to_float_id none = 0 ∧
    (∀ s0 : Str, strip s0 = [] → to_float_id (some s0) = 0) ∧
    (∀ s0 : Str, pyFloat (normNum (keepNum (strip s0))) = none → to_float_id (some s0) = 0) := by
  refine ⟨rfl, ?_, ?_⟩
  · intro s0 h
    simp [to_float_id, h]
  · intro s0 h
    simp only [to_float_id]
    split_ifs with h1 h2
    · rfl
    · rfl
    · rw [h]

theorem claim_C7_witness :
    (strip "   ".toList = [] ∧ to_float_id (some "   ".toList) = 0) ∧
    (pyFloat (normNum (keepNum (strip "abc".toList))) = none ∧
      to_float_id (some "abc".toList) = 0) :=
  ⟨⟨by decide, claim_C7.2.1 _ (by decide)⟩, ⟨by decide, claim_C7.2.2 _ (by decide)⟩⟩

/-- Counterexample to claim C9: the stock line with a product code and
only three trailing tokens is parsed without any error, silently
emitting a record with an empty name, instead of raising the structured
parse error the claim requires. -/
theorem claim_C9_counterexample :
    parse_stok_line "A001 GudangA 10,00 BTL".toList =
      StokResult.emit { kode := "A001".toList, nama_produk := [], lokasi := "GudangA".toList,
                        qty_stok := 10, unit := "BTL".toList } ∧
    parse_stok_line "A001 GudangA 10,00 BTL".toList ≠ StokResult.err :=
  ⟨by decide, by decide⟩

/-- Claim C9 as amended to what the source does: a code line never
raises a structured error; with three trailing tokens it silently emits
a record whose name is empty, with two trailing tokens it emits a
record that reuses the code as the location, and with fewer than two
trailing tokens the fixed-from-the-right indexing fails with an
unlabeled index error. -/
theorem claim_C9 (l : Str) (c0 t1 t2 t3 : Str)
    (hne : strip l ≠ []) (hK : leadsWith "KODE".toList (strip l) = false)
    (hcode : isCodePat c0 = true) :
    (tokenize (strip l) = [c0, t1, t2, t3] →
      parse_stok_line l =
        StokResult.emit ⟨c0, [], t1, to_float_id (some t2), t3⟩) ∧
    (tokenize (strip l) = [c0, t1, t2] →
      parse_stok_line l =
        StokResult.emit ⟨c0, [], c0, to_float_id (some t1), t2⟩) ∧
    (tokenize (strip l) = [c0, t1] → parse_stok_line l = StokResult.err) ∧
    (tokenize (strip l) = [c0] → parse_stok_line l = StokResult.err) := by
  refine ⟨?_, ?_, ?_, ?_⟩ <;>
    · intro htok
      rw [parse_stok_line, if_neg hne, if_neg (by rw [hK]; exact Bool.false_ne_true)]
      simp [htok, hcode, List.intercalate]

def line_w9a : Str := "A001 GudangA 10,00 BTL".toList

def line_w9b : Str := "A001 BTL".toList

theorem claim_C9_witness :
    ((strip line_w9a ≠ [] ∧ leadsWith "KODE".toList (strip line_w9a) = false ∧
      isCodePat "A001".toList = true ∧
      tokenize (strip line_w9a) =
        ["A001".toList, "GudangA".toList, "10,00".toList, "BTL".toList]) ∧
     parse_stok_line line_w9a =
       StokResult.emit ⟨"A001".toList, [], "GudangA".toList,
         to_float_id (some "10,00".toList), "BTL".toList⟩) ∧
    ((tokenize (strip line_w9b) = ["A001".toList, "BTL".toList]) ∧
     parse_stok_line line_w9b = StokResult.err) :=
  ⟨⟨⟨by decide, by decide, by decide, by decide⟩,
    (claim_C9 line_w9a "A001".toList "GudangA".toList "10,00".toList "BTL".toList
      (by decide) (by decide) (by decide)).1 (by decide)⟩,
   ⟨by decide,
    (claim_C9 line_w9b "A001".toList "BTL".toList [] []
      (by decide) (by decide) (by decide)).2.2.1 (by decide)⟩⟩

lemma classify_mem {df : List Row} {mask : List (Nat × Bool)} {r : CRow}
    (h : r ∈ classify_outliers df mask) : ∃ row : Row, row ∈ df ∧ r = mkCRow df row := by
  simp only [classify_outliers, List.mem_map] at h
  obtain ⟨row, hrow, hr⟩ := h
  exact ⟨row, (List.mem_filter.mp hrow).1, hr.symm⟩

lemma mkCRow_is_error (df : List Row) (row : Row) :
    (mkCRow df row).is_error =
      (optLt (mkCRow df row).price_ratio 0.5 || optGt (mkCRow df row).price_ratio 1.5 ||
        pdNe (mkCRow df row).unit (mkCRow df row).typical_unit) := rfl

/-- Claim C3: on every row of the classifier output, is_error is the
disjunction of the strict price-ratio bounds and the unit mismatch, so
any one signal alone suffices; and at a ratio of exactly 0.5 or exactly
1.5 neither price branch fires, leaving is_error equal to the unit
mismatch alone. -/
theorem claim_C3 (df : List Row) (mask : List (Nat × Bool)) (r : CRow)
    (h : r ∈ classify_outliers df mask) :
    r.is_error = (optLt r.price_ratio 0.5 || optGt r.price_ratio 1.5 ||
      pdNe r.unit r.typical_unit) ∧
    ((r.price_ratio = some 0.5 ∨ r.price_ratio = some 1.5) →
      r.is_error = pdNe r.unit r.typical_unit) := by
  obtain ⟨row, hrow, rfl⟩ := classify_mem h
  refine ⟨mkCRow_is_error df row, ?_⟩
  intro hr
  rw [mkCRow_is_error df row]
  rcases hr with hr | hr <;> rw [hr] <;> simp [optLt, optGt] <;> norm_num

def df_w3 : List Row :=
  [⟨0, 1, 1, some "A1".toList, some "BTL".toList⟩,
   ⟨1, 1, 2, some "A1".toList, some "BTL".toList⟩,
   ⟨2, 1, 3, some "A1".toList, some "BTL".toList⟩]

def mask_w3 : List (Nat × Bool) := [(0, true), (1, false), (2, false)]

def r_w3 : CRow :=
  ⟨0, 1, 1, some "A1".toList, some "BTL".toList, some 1, some 2, some (1/2),
   some "BTL".toList, false⟩

theorem claim_C3_witness :
    r_w3 ∈ classify_outliers df_w3 mask_w3 ∧
    (r_w3.is_error = (optLt r_w3.price_ratio 0.5 || optGt r_w3.price_ratio 1.5 ||
      pdNe r_w3.unit r_w3.typical_unit) ∧
     ((r_w3.price_ratio = some 0.5 ∨ r_w3.price_ratio = some 1.5) →
       r_w3.is_error = pdNe r_w3.unit r_w3.typical_unit)) :=
  ⟨by decide, claim_C3 df_w3 mask_w3 r_w3 (by decide)⟩

/-- Claim C6: a classified row whose quantity out is zero has an
undefined price per unit, neither strict price-ratio bound ever holds
on its undefined ratio, and its error verdict reduces to the
unit-mismatch branch alone. -/
theorem claim_C6 (df : List Row) (mask : List (Nat × Bool)) (r : CRow)
    (h : r ∈ classify_outliers df mask) (hq : r.qty_klr = 0) :
    r.price_per_unit = none ∧ optLt r.price_ratio 0.5 = false ∧
    optGt r.price_ratio 1.5 = false ∧ r.is_error = pdNe r.unit r.typical_unit := by
  obtain ⟨row, hrow, rfl⟩ := classify_mem h
  have hq' : row.qty_klr = 0 := hq
  have hp : priceOf row = none := by simp [priceOf, hq']
  have hratio : (mkCRow df row).price_ratio = none := by simp [mkCRow, hp]
  have hppu : (mkCRow df row).price_per_unit = priceOf row := rfl
  refine ⟨by rw [hppu, hp], by rw [hratio]; rfl, by rw [hratio]; rfl, ?_⟩
  rw [mkCRow_is_error df row, hratio]
  rfl

def df_w6 : List Row :=
  [⟨0, 0, 5, some "A1".toList, some "PCS".toList⟩,
   ⟨1, 1, 2, some "A1".toList, some "BTL".toList⟩,
   ⟨2, 1, 2, some "A1".toList, some "BTL".toList⟩]

def mask_w6 : List (Nat × Bool) := [(0, true), (1, false), (2, false)]

def r_w6 : CRow :=
  ⟨0, 0, 5, some "A1".toList, some "PCS".toList, none, some 2, none,
   some "BTL".toList, true⟩

theorem claim_C6_witness :
    r_w6 ∈ classify_outliers df_w6 mask_w6 ∧ r_w6.qty_klr = 0 ∧ r_w6.is_error = true ∧
    (r_w6.price_per_unit = none ∧ optLt r_w6.price_ratio 0.5 = false ∧
     optGt r_w6.price_ratio 1.5 = false ∧ r_w6.is_error = pdNe r_w6.unit r_w6.typical_unit) :=
  ⟨by decide, by decide, by decide, claim_C6 df_w6 mask_w6 r_w6 (by decide) (by decide)⟩

/-- Claim C8: every classified row's median price per unit and typical
unit are the group statistics of its product code computed over the
whole transaction table, joined by code; a missing code joins to
missing statistics. -/
theorem claim_C8 (df : List Row) (mask : List (Nat × Bool)) (r : CRow)
    (h : r ∈ classify_outliers df mask) :
    (∀ c : Str, r.kode = some c →
      r.median_price_per_unit =
        medianQ ((df.filter (fun x => x.kode == some c)).filterMap priceOf) ∧
      r.typical_unit =
        mostCommon ((df.filter (fun x => x.kode == some c)).filterMap (fun x => x.unit))) ∧
    (r.kode = none → r.median_price_per_unit = none ∧ r.typical_unit = none) := by
  obtain ⟨row, hrow, rfl⟩ := classify_mem h
  have h1 : (mkCRow df row).median_price_per_unit = medPriceFor df row.kode := rfl
  have h2 : (mkCRow df row).typical_unit = typical_unit_per_code df row.kode := rfl
  constructor
  · intro c hc
    have hc' : row.kode = some c := hc
    rw [h1, h2, hc']
    exact ⟨rfl, rfl⟩
  · intro hc
    have hc' : row.kode = none := hc
    rw [h1, h2, hc']
    exact ⟨rfl, rfl⟩

def df_w8 : List Row :=
  [⟨0, 1, 1, some "A1".toList, some "U".toList⟩,
   ⟨1, 1, 3, some "A1".toList, some "U".toList⟩,
   ⟨2, 1, 100, some "B2".toList, some "V".toList⟩]

def mask_w8 : List (Nat × Bool) := [(0, true), (1, false), (2, false)]

def r_w8 : CRow :=
  ⟨0, 1, 1, some "A1".toList, some "U".toList, some 1, some 2, some (1/2),
   some "U".toList, false⟩

theorem claim_C8_witness :
    r_w8 ∈ classify_outliers df_w8 mask_w8 ∧
    (r_w8.median_price_per_unit =
      medianQ ((df_w8.filter (fun x => x.kode == some "A1".toList)).filterMap priceOf) ∧
     r_w8.typical_unit =
      mostCommon ((df_w8.filter (fun x => x.kode == some "A1".toList)).filterMap
        (fun x => x.unit))) :=
  ⟨by decide, (claim_C8 df_w8 mask_w8 r_w8 (by decide)).1 "A1".toList (by decide)⟩

lemma length_filter_not (l : List α) (p : α → Bool) :
    (l.filter (fun a => !(p a))).length + (l.filter p).length = l.length := by
  induction l with
  | nil => rfl
  | cons a t ih => cases h : p a <;> simp [List.filter_cons, h] <;> omega

lemma map_filter_comp (f : α → β) (q : β → Bool) (l : List α) :
    (l.filter (fun a => q (f a))).map f = (l.map f).filter q := by
  induction l with
  | nil => rfl
  | cons a t ih => cases h : q (f a) <;> simp [List.filter_cons, h, ih]

lemma filter_mem_length_eq {ids errs : List Nat} (hids : ids.Nodup) (herrs : errs.Nodup)
    (hsub : ∀ a ∈ errs, a ∈ ids) :
    (ids.filter (fun i => decide (i ∈ errs))).length = errs.length := by
  have hnd : (ids.filter (fun i => decide (i ∈ errs))).Nodup := hids.filter _
  have hperm : List.Perm (ids.filter (fun i => decide (i ∈ errs))) errs := by
    rw [List.perm_ext_iff_of_nodup hnd herrs]
    intro a
    simp only [List.mem_filter, decide_eq_true_eq]
    exact ⟨fun h => h.2, fun h => ⟨hsub a h, h⟩⟩
  exact hperm.length_eq

lemma lookup_eq_of_nodup {l : List (Nat × Bool)} (hn : (l.map Prod.fst).Nodup)
    {i : Nat} {b : Bool} (hm : (i, b) ∈ l) : l.lookup i = some b := by
  induction l with
  | nil => cases hm
  | cons p t ih =>
    rcases List.mem_cons.mp hm with h | h
    · rw [← h]
      simp [List.lookup]
    · have hni : p.1 ≠ i := by
        intro he
        have : i ∈ t.map Prod.fst := List.mem_map.mpr ⟨(i, b), h, rfl⟩
        rw [List.map_cons, List.nodup_cons] at hn
        exact hn.1 (he ▸ this)
      have hbeq : (i == p.1) = false := by
        simp [Ne.symm hni]
      rw [List.map_cons, List.nodup_cons] at hn
      cases p with
      | mk k v =>
        simp only [List.lookup, hbeq]
        exact ih hn.2 h

/-- Claim C4: under the pipeline-shaped preconditions (distinct index
labels, mask aligned to the table, classification labels distinct and
error labels present in the table), handle_outliers removes exactly the
error rows: the cleaned length is the original length minus the error
count, the returned flags are positionally aligned to the cleaned
table, a surviving mask entry keeps its value (so remaining flagged
rows stay true and never-flagged rows stay false), and no removed label
appears among the returned flags. -/
theorem claim_C4 (df : List Row) (mask : List (Nat × Bool)) (cls : List (Nat × Bool))
    (i : Nat) (b : Bool)
    (hdf : (df.map Row.idx).Nodup)
    (hmask : mask.map Prod.fst = df.map Row.idx)
    (hcls : (cls.map Prod.fst).Nodup)
    (hsub : ∀ p ∈ cls, p.2 = true → p.1 ∈ df.map Row.idx) :
    (handle_outliers df mask cls).1.length =
      df.length - (cls.filter (fun p => p.2)).length ∧
    (handle_outliers df mask cls).2.map Prod.fst =
      (handle_outliers df mask cls).1.map Row.idx ∧
    ((i, b) ∈ mask → i ∉ errIdxOf cls → (i, b) ∈ (handle_outliers df mask cls).2) ∧
    (i ∈ errIdxOf cls → i ∉ (handle_outliers df mask cls).2.map Prod.fst) := by
  have herrs_nodup : (errIdxOf cls).Nodup := by
    have h1 : List.Sublist (cls.filter (fun p => p.2)) cls := List.filter_sublist _
    exact List.Nodup.sublist (h1.map Prod.fst) hcls
  have hsub' : ∀ a ∈ errIdxOf cls, a ∈ df.map Row.idx := by
    intro a ha
    simp only [errIdxOf, List.mem_map, List.mem_filter] at ha
    obtain ⟨p, ⟨hp, hp2⟩, rfl⟩ := ha
    exact hsub p hp hp2
  have hcount : (df.filter (fun r => decide (r.idx ∈ errIdxOf cls))).length =
      (errIdxOf cls).length := by
    have hmapf := map_filter_comp Row.idx (fun j => decide (j ∈ errIdxOf cls)) df
    calc (df.filter (fun r => decide (r.idx ∈ errIdxOf cls))).length
        = ((df.filter (fun r => decide (r.idx ∈ errIdxOf cls))).map Row.idx).length := by
          rw [List.length_map]
      _ = ((df.map Row.idx).filter (fun j => decide (j ∈ errIdxOf cls))).length := by
          rw [hmapf]
      _ = (errIdxOf cls).length := filter_mem_length_eq hdf herrs_nodup hsub'
  have halign : (handle_outliers df mask cls).2.map Prod.fst =
      (df.filter (fun r => !(decide (r.idx ∈ errIdxOf cls)))).map Row.idx := by
    simp [handle_outliers, List.map_map]
  refine ⟨?_, ?_, ?_, ?_⟩
  · have hsum := length_filter_not df (fun r => decide (r.idx ∈ errIdxOf cls))
    have hlen : (errIdxOf cls).length = (cls.filter (fun p => p.2)).length := by
      simp [errIdxOf]
    show (df.filter (fun r => !(decide (r.idx ∈ errIdxOf cls)))).length =
      df.length - (cls.filter (fun p => p.2)).length
    omega
  · exact halign
  · intro hmem hnotin
    have hkeys : (mask.map Prod.fst).Nodup := hmask ▸ hdf
    have hm1mem : (i, b) ∈ mask.filter (fun p => !(decide (p.1 ∈ errIdxOf cls))) :=
      List.mem_filter.mpr ⟨hmem, by simp [hnotin]⟩
    have hm1keys : ((mask.filter (fun p => !(decide (p.1 ∈ errIdxOf cls)))).map Prod.fst).Nodup :=
      List.Nodup.sublist ((List.filter_sublist _).map Prod.fst) hkeys
    have hlook : (mask.filter (fun p => !(decide (p.1 ∈ errIdxOf cls)))).lookup i = some b :=
      lookup_eq_of_nodup hm1keys hm1mem
    have hi_ids : i ∈ df.map Row.idx := by
      rw [← hmask]; exact List.mem_map.mpr ⟨(i, b), hmem, rfl⟩
    obtain ⟨r0, hr0df, hr0idx⟩ := List.mem_map.mp hi_ids
    have hr0clean : r0 ∈ df.filter (fun r => !(decide (r.idx ∈ errIdxOf cls))) :=
      List.mem_filter.mpr ⟨hr0df, by simp [hr0idx, hnotin]⟩
    show (i, b) ∈ (df.filter (fun r => !(decide (r.idx ∈ errIdxOf cls)))).map
      (fun r => (r.idx, ((mask.filter (fun p => !(decide (p.1 ∈ errIdxOf cls)))).lookup
        r.idx).getD false))
    exact List.mem_map.mpr ⟨r0, hr0clean, by rw [hr0idx, hlook]; rfl⟩
  · intro hin hmem2
    rw [halign] at hmem2
    obtain ⟨r0, hr0, hr0i⟩ := List.mem_map.mp hmem2
    have hflt := (List.mem_filter.mp hr0).2
    rw [hr0i] at hflt
    simp [hin] at hflt

def df_w4 : List Row :=
  [⟨0, 1, 1, some "A1".toList, some "U".toList⟩,
   ⟨1, 5, 5, some "A1".toList, some "U".toList⟩,
   ⟨2, 2, 2, some "A1".toList, some "U".toList⟩]

def mask_w4 : List (Nat × Bool) := [(0, false), (1, true), (2, true)]

def cls_w4 : List (Nat × Bool) := [(1, true), (2, false)]

theorem claim_C4_witness :
    ((df_w4.map Row.idx).Nodup ∧ mask_w4.map Prod.fst = df_w4.map Row.idx ∧
      (cls_w4.map Prod.fst).Nodup ∧
      (∀ p ∈ cls_w4, p.2 = true → p.1 ∈ df_w4.map Row.idx)) ∧
    ((handle_outliers df_w4 mask_w4 cls_w4).1.length =
        df_w4.length - (cls_w4.filter (fun p => p.2)).length ∧
      (handle_outliers df_w4 mask_w4 cls_w4).2.map Prod.fst =
        (handle_outliers df_w4 mask_w4 cls_w4).1.map Row.idx ∧
      ((2, true) ∈ mask_w4 → 2 ∉ errIdxOf cls_w4 →
        (2, true) ∈ (handle_outliers df_w4 mask_w4 cls_w4).2) ∧
      (2 ∈ errIdxOf cls_w4 →
        2 ∉ (handle_outliers df_w4 mask_w4 cls_w4).2.map Prod.fst)) :=
  ⟨⟨by decide, by decide, by decide, by decide⟩,
   claim_C4 df_w4 mask_w4 cls_w4 2 true (by decide) (by decide) (by decide) (by decide)⟩

lemma not_ws_of_digit {c : Char} (h : c.isDigit = true) : isWs c = false := by
  simp only [isWs, Bool.or_eq_false_iff, decide_eq_false_iff_not]
  refine ⟨⟨⟨⟨⟨?_, ?_⟩, ?_⟩, ?_⟩, ?_⟩, ?_⟩ <;>
    · rintro rfl
      exact absurd h (by decide)

lemma beq_false_of_digit_left {c w : Char} (h : c.isDigit = true) (hw : w.isDigit = false) :
    (c == w) = false := by
  refine beq_eq_false_iff_ne.mpr ?_
  rintro rfl
  rw [h] at hw
  exact absurd hw (by decide)

lemma beq_false_of_digit_right {c w : Char} (h : c.isDigit = true) (hw : w.isDigit = false) :
    (w == c) = false := by
  refine beq_eq_false_iff_ne.mpr ?_
  rintro rfl
  rw [h] at hw
  exact absurd hw (by decide)

lemma rstrip_cons_of_not_ws {c : Char} {l : Str} (h : isWs c = false) :
    rstrip (c :: l) = c :: rstrip l := by
  simp [rstrip, h]

lemma leadsWith_cons_ne {p c : Char} {ps cs : Str} (h : (p == c) = false) :
    leadsWith (p :: ps) (c :: cs) = false := by
  simp [leadsWith, h]

lemma isCodePat_digit {a : Char} (h : a.isDigit = true) (t : Str) :
    isCodePat (a :: t) = false := by
  cases t with
  | nil => rfl
  | cons b bs =>
    simp [isCodePat, beq_false_of_digit_left h (by decide : ('A').isDigit = false)]

lemma matchTrans_shape {s : Str} {x : Str × Str × Str} (h : matchTrans s = some x) :
    ∃ a t, s = a :: t ∧ a.isDigit = true := by
  match s with
  | [] => simp [matchTrans] at h
  | [a] => simp [matchTrans] at h
  | [a, b] => simp [matchTrans] at h
  | [a, b, c] => simp [matchTrans] at h
  | [a, b, c, d] => simp [matchTrans] at h
  | [a, b, c, d, e] => simp [matchTrans] at h
  | [a, b, c, d, e, f] => simp [matchTrans] at h
  | [a, b, c, d, e, f, g] => simp [matchTrans] at h
  | a :: b :: c :: d :: e :: f :: g :: h8 :: rest =>
    refine ⟨a, _, rfl, ?_⟩
    by_contra hda
    have hda' : a.isDigit = false := by
      cases hd : a.isDigit
      · rfl
      · exact absurd hd hda
    rw [matchTrans, hda'] at h
    simp at h

lemma stepLine_trans {ctx : Ctx} {raw dt tid rem : Str}
    (hm : matchTrans (lstrip raw) = some (dt, tid, rem)) :
    stepLine ctx raw = (ctx, some
      { tanggal := dt, no_transaksi := tid,
        qty_msk := (transFields (lstrip raw) (findNums rem)).1,
        nilai_msk := (transFields (lstrip raw) (findNums rem)).2.1,
        qty_klr := (transFields (lstrip raw) (findNums rem)).2.2.1,
        nilai_klr := (transFields (lstrip raw) (findNums rem)).2.2.2,
        kode := ctx.code, nama_produk := ctx.name, unit := ctx.unit }) := by
  obtain ⟨a, t, hlt, hd⟩ := matchTrans_shape hm
  have hstrip : strip raw = a :: rstrip t := by
    rw [strip, hlt, rstrip_cons_of_not_ws (not_ws_of_digit hd)]
  have hK : leadsWith "KODE".toList (a :: rstrip t) = false :=
    leadsWith_cons_ne (beq_false_of_digit_right hd (by decide))
  have hT : leadsWith "TANGGAL".toList (a :: rstrip t) = false :=
    leadsWith_cons_ne (beq_false_of_digit_right hd (by decide))
  have hC : isCodePat (a :: rstrip t) = false := isCodePat_digit hd _
  rw [stepLine, hstrip, hK, hT, hC]
  simp only [List.cons_ne_nil, if_false, Bool.or_self, Bool.false_eq_true, hm]

lemma stepLine_fst_of_not_code {ctx : Ctx} {l : Str} (h : isCodePat (strip l) = false) :
    (stepLine ctx l).1 = ctx := by
  unfold stepLine
  split_ifs with h1 h2 h3
  · rfl
  · rfl
  · rw [h] at h3
    exact absurd h3 (by simp)
  · cases hm : matchTrans (lstrip l) with
    | none => rfl
    | some x =>
      obtain ⟨dt, tid, rem⟩ := x
      rfl

lemma stepLine_snd_stamps {ctx : Ctx} {l : Str} {r : PRecord}
    (h : (stepLine ctx l).2 = some r) :
    r.kode = ctx.code ∧ r.nama_produk = ctx.name ∧ r.unit = ctx.unit := by
  by_cases h1 : strip l = []
  · rw [stepLine, if_pos h1] at h
    simp at h
  by_cases h2 : (leadsWith "KODE".toList (strip l) ||
      leadsWith "TANGGAL".toList (strip l)) = true
  · rw [stepLine, if_neg h1, if_pos h2] at h
    simp at h
  by_cases h3 : isCodePat (strip l) = true
  · rw [stepLine, if_neg h1, if_neg h2, if_pos h3] at h
    simp at h
  rw [stepLine, if_neg h1, if_neg h2, if_neg h3] at h
  cases hm : matchTrans (lstrip l) with
  | none => rw [hm] at h; simp at h
  | some x =>
    obtain ⟨dt, tid, rem⟩ := x
    rw [hm] at h
    have he := Option.some.inj h
    subst he
    exact ⟨rfl, rfl, rfl⟩

lemma parseLines_stamp {ctx : Ctx} {ls : List Str}
    (h : ∀ l ∈ ls, isCodePat (strip l) = false) :
    ∀ r ∈ parseLines ctx ls, r.kode = ctx.code ∧ r.nama_produk = ctx.name ∧
      r.unit = ctx.unit := by
  induction ls generalizing ctx with
  | nil => intro r hr; cases hr
  | cons l t ih =>
    intro r hr
    have hl := h l (List.mem_cons_self l t)
    have hfst : (stepLine ctx l).1 = ctx := stepLine_fst_of_not_code hl
    cases hs : stepLine ctx l with
    | mk ctx2 o =>
      have hctx2 : ctx2 = ctx := by rw [← hfst, hs]
      subst hctx2
      rw [parseLines, hs] at hr
      cases o with
      | none => exact ih (fun l2 hl2 => h l2 (List.mem_cons_of_mem _ hl2)) r hr
      | some r0 =>
        rcases List.mem_cons.mp hr with rfl | hr2
        · exact stepLine_snd_stamps (by rw [hs])
        · exact ih (fun l2 hl2 => h l2 (List.mem_cons_of_mem _ hl2)) r hr2

lemma parseLines_append (ctx : Ctx) (xs ys : List Str) :
    parseLines ctx (xs ++ ys) = parseLines ctx xs ++ parseLines (ctxFold ctx xs) ys := by
  induction xs generalizing ctx with
  | nil => rfl
  | cons l t ih =>
    rw [List.cons_append, parseLines, parseLines]
    cases hs : stepLine ctx l with
    | mk ctx2 o =>
      have hfold : ctxFold ctx (l :: t) = ctxFold ctx2 t := by rw [ctxFold, hs]
      cases o with
      | none =>
        dsimp only
        rw [hfold]
        exact ih ctx2
      | some r0 =>
        dsimp only
        rw [hfold, ih ctx2, List.cons_append]

lemma tokAux_ne_nil : ∀ (t acc : Str), acc ≠ [] → tokAux t acc ≠ [] := by
  intro t
  induction t with
  | nil =>
    intro acc h
    simp [tokAux, h]
  | cons c s ih =>
    intro acc h
    rw [tokAux]
    by_cases hw : isWs c = true
    · rw [if_pos hw, if_neg h]
      exact List.cons_ne_nil _ _
    · rw [if_neg hw]
      exact ih _ (List.cons_ne_nil _ _)

lemma stepLine_header {ctx : Ctx} {l : Str} (h : isCodePat (strip l) = true) :
    stepLine ctx l = (headerApply (strip l) ctx, none) := by
  have hshape : ∃ b t, strip l = 'A' :: b :: t ∧ b.isDigit = true := by
    rcases hsl : strip l with _ | ⟨a, _ | ⟨b, t⟩⟩
    · rw [hsl] at h; simp [isCodePat] at h
    · rw [hsl] at h; simp [isCodePat] at h
    · rw [hsl] at h
      simp only [isCodePat, Bool.and_eq_true, beq_iff_eq] at h
      exact ⟨b, t, by rw [h.1], h.2⟩
  obtain ⟨b, t, hsl, hb⟩ := hshape
  have hC : isCodePat ('A' :: b :: t) = true := hsl ▸ h
  have hK : leadsWith "KODE".toList ('A' :: b :: t) = false :=
    leadsWith_cons_ne (by decide)
  have hT : leadsWith "TANGGAL".toList ('A' :: b :: t) = false :=
    leadsWith_cons_ne (by decide)
  rw [stepLine, hsl, hK, hT, hC]
  simp only [List.cons_ne_nil, if_false, Bool.or_self, Bool.false_eq_true, if_true]

lemma headerApply_of_code {s : Str} (h : isCodePat s = true) (ctx : Ctx) :
    headerApply s ctx = headerCtxOf s := by
  have hshape : ∃ b t, s = 'A' :: b :: t := by
    rcases hsl : s with _ | ⟨a, _ | ⟨b, t⟩⟩
    · rw [hsl] at h; simp [isCodePat] at h
    · rw [hsl] at h; simp [isCodePat] at h
    · exact ⟨b, t, by
        rw [hsl] at h
        simp only [isCodePat, Bool.and_eq_true, beq_iff_eq] at h
        rw [h.1]⟩
  obtain ⟨b, t, hsl⟩ := hshape
  have : tokenize s ≠ [] := by
    rw [hsl, tokenize, tokAux, if_neg (by decide : ¬(isWs 'A' = true))]
    exact tokAux_ne_nil _ _ (List.cons_ne_nil _ _)
  rw [headerApply, if_neg this]

lemma parse_after_header {pre : List Str} {h : Str} {rest : List Str} {r : PRecord}
    (hh : isCodePat (strip h) = true)
    (hrest : ∀ l ∈ rest, isCodePat (strip l) = false)
    (hr : r ∈ (parse_pembelian_tsv (pre ++ h :: rest)).drop
      (parse_pembelian_tsv pre).length) :
    r.kode = (headerCtxOf (strip h)).code ∧ r.nama_produk = (headerCtxOf (strip h)).name ∧
      r.unit = (headerCtxOf (strip h)).unit := by
  rw [parse_pembelian_tsv, parse_pembelian_tsv, parseLines_append, List.drop_left] at hr
  rw [parseLines, stepLine_header hh] at hr
  dsimp only at hr
  rw [headerApply_of_code hh] at hr
  exact parseLines_stamp hrest r hr

/-- The count-based assignment of extracted numbers to the four numeric
fields as the claim states it: four numbers positionally, three with
value out zero, two split on the 60-character offset of the first number
in the line, one to quantity in, none leaving all zero. -/
def specNumAssign (line : Str) (nums : List Str) : Rat × Rat × Rat × Rat :=
  match nums.length with
  | 4 =>
    (to_float_id (some (nums.getD 0 [])), to_float_id (some (nums.getD 1 [])),
     to_float_id (some (nums.getD 2 [])), to_float_id (some (nums.getD 3 [])))
  | 3 =>
    (to_float_id (some (nums.getD 0 [])), to_float_id (some (nums.getD 1 [])),
     to_float_id (some (nums.getD 2 [])), 0)
  | 2 =>
    if pyFind line (nums.getD 0 []) < 60 then
      (to_float_id (some (nums.getD 0 [])), to_float_id (some (nums.getD 1 [])), 0, 0)
    else
      (0, 0, to_float_id (some (nums.getD 0 [])), to_float_id (some (nums.getD 1 [])))
  | 1 => (to_float_id (some (nums.getD 0 [])), 0, 0, 0)
  | _ => (0, 0, 0, 0)

lemma transFields_eq_spec {line : Str} {nums : List Str} (h : nums.length ≤ 4) :
    transFields line nums = specNumAssign line nums := by
  have hc : nums.length = 0 ∨ nums.length = 1 ∨ nums.length = 2 ∨ nums.length = 3 ∨
      nums.length = 4 := by omega
  rcases hc with h0 | h0 | h0 | h0 | h0 <;> simp [transFields, specNumAssign, h0]

/-- Claim C1: every line matching the transaction pattern is emitted as
a record whose four numeric fields follow the count-based mapping of
the extracted decimal-comma numbers, with the two-number case split on
the 60-character offset of the first number; and the sample line with
two low-offset numbers yields quantity in 1, value in 2 and zero
outgoing fields. -/
theorem claim_C1 :
    (∀ (ctx : Ctx) (raw dt tid rem : Str),
      matchTrans (lstrip raw) = some (dt, tid, rem) →
      (findNums rem).length ≤ 4 →
      stepLine ctx raw = (ctx, some
        { tanggal := dt, no_transaksi := tid,
          qty_msk := (specNumAssign (lstrip raw) (findNums rem)).1,
          nilai_msk := (specNumAssign (lstrip raw) (findNums rem)).2.1,
          qty_klr := (specNumAssign (lstrip raw) (findNums rem)).2.2.1,
          nilai_klr := (specNumAssign (lstrip raw) (findNums rem)).2.2.2,
          kode := ctx.code, nama_produk := ctx.name, unit := ctx.unit })) ∧
    parse_pembelian_tsv ["01-02-23  TRX1  1,00 2,00".toList] =
      [{ tanggal := "01-02-23".toList, no_transaksi := "TRX1".toList,
         qty_msk := 1, nilai_msk := 2, qty_klr := 0, nilai_klr := 0,
         kode := none, nama_produk := none, unit := none }] := by
  constructor
  · intro ctx raw dt tid rem hm hlen
    rw [stepLine_trans hm, transFields_eq_spec hlen]
  · decide

theorem claim_C1_witness :
    (matchTrans (lstrip "03-04-25 TRX7 2,50".toList) =
      some ("03-04-25".toList, "TRX7".toList, "2,50".toList) ∧
     (findNums "2,50".toList).length ≤ 4) ∧
    stepLine initCtx "03-04-25 TRX7 2,50".toList = (initCtx, some
      { tanggal := "03-04-25".toList, no_transaksi := "TRX7".toList,
        qty_msk := (specNumAssign (lstrip "03-04-25 TRX7 2,50".toList)
          (findNums "2,50".toList)).1,
        nilai_msk := (specNumAssign (lstrip "03-04-25 TRX7 2,50".toList)
          (findNums "2,50".toList)).2.1,
        qty_klr := (specNumAssign (lstrip "03-04-25 TRX7 2,50".toList)
          (findNums "2,50".toList)).2.2.1,
        nilai_klr := (specNumAssign (lstrip "03-04-25 TRX7 2,50".toList)
          (findNums "2,50".toList)).2.2.2,
        kode := none, nama_produk := none, unit := none }) :=
  ⟨⟨by decide, by decide⟩,
   claim_C1.1 initCtx "03-04-25 TRX7 2,50".toList "03-04-25".toList "TRX7".toList
     "2,50".toList (by decide) (by decide)⟩

/-- Claim C5: transaction records produced before any header line carry
missing product code, name and unit; and once a header line is
recognized, its product context is stamped onto every subsequent
transaction record up to the next header line. -/
theorem claim_C5 :
    (∀ (pre rest : List Str) (r : PRecord),
      (∀ l ∈ pre, isCodePat (strip l) = false) →
      r ∈ (parse_pembelian_tsv (pre ++ rest)).take (parse_pembelian_tsv pre).length →
      r.kode = none ∧ r.nama_produk = none ∧ r.unit = none) ∧
    (∀ (pre : List Str) (h : Str) (rest : List Str) (r : PRecord),
      isCodePat (strip h) = true →
      (∀ l ∈ rest, isCodePat (strip l) = false) →
      r ∈ (parse_pembelian_tsv (pre ++ h :: rest)).drop
        (parse_pembelian_tsv pre).length →
      r.kode = (headerCtxOf (strip h)).code ∧
        r.nama_produk = (headerCtxOf (strip h)).name ∧
        r.unit = (headerCtxOf (strip h)).unit) := by
  constructor
  · intro pre rest r hpre hr
    rw [parse_pembelian_tsv, parse_pembelian_tsv, parseLines_append, List.take_left] at hr
    exact parseLines_stamp hpre r hr
  · intro pre h rest r hh hrest hr
    exact parse_after_header hh hrest hr

def pre_w5 : List Str := ["01-01-23 T1 1,00".toList]

def rec_w5a : PRecord :=
  ⟨"01-01-23".toList, "T1".toList, 1, 0, 0, 0, none, none, none⟩

def hdr_w5 : Str := "A9 X BTL".toList

def rest_w5 : List Str := ["02-01-23 T2 3,00".toList]

def rec_w5b : PRecord :=
  ⟨"02-01-23".toList, "T2".toList, 3, 0, 0, 0, some "A9".toList, some "X".toList,
   some "BTL".toList⟩

theorem claim_C5_witness :
    ((∀ l ∈ pre_w5, isCodePat (strip l) = false) ∧
      rec_w5a ∈ (parse_pembelian_tsv (pre_w5 ++ rest_w5)).take
        (parse_pembelian_tsv pre_w5).length ∧
      (rec_w5a.kode = none ∧ rec_w5a.nama_produk = none ∧ rec_w5a.unit = none)) ∧
    (isCodePat (strip hdr_w5) = true ∧ (∀ l ∈ rest_w5, isCodePat (strip l) = false) ∧
      rec_w5b ∈ (parse_pembelian_tsv (pre_w5 ++ hdr_w5 :: rest_w5)).drop
        (parse_pembelian_tsv pre_w5).length ∧
      (rec_w5b.kode = (headerCtxOf (strip hdr_w5)).code ∧
        rec_w5b.nama_produk = (headerCtxOf (strip hdr_w5)).name ∧
        rec_w5b.unit = (headerCtxOf (strip hdr_w5)).unit)) :=
  ⟨⟨by decide, by decide, claim_C5.1 pre_w5 rest_w5 rec_w5a (by decide) (by decide)⟩,
   ⟨by decide, by decide, by decide,
    claim_C5.2 pre_w5 hdr_w5 rest_w5 rec_w5b (by decide) (by decide) (by decide)⟩⟩

/-- Claim C10: a header line consisting of exactly one token sets both
the current product code and the current product unit to that token and
leaves the product name missing, so every subsequent transaction record
up to the next header line carries the code string as its unit and a
missing name. -/
theorem claim_C10 (pre : List Str) (h : Str) (rest : List Str) (t : Str) (r : PRecord)
    (htok : tokenize (strip h) = [t]) (hh : isCodePat (strip h) = true)
    (hrest : ∀ l ∈ rest, isCodePat (strip l) = false)
    (hr : r ∈ (parse_pembelian_tsv (pre ++ h :: rest)).drop
      (parse_pembelian_tsv pre).length) :
    r.kode = some t ∧ r.nama_produk = none ∧ r.unit = some t := by
  have hctx : headerCtxOf (strip h) = ⟨some t, none, some t⟩ := by
    simp [headerCtxOf, htok]
  have hmain := parse_after_header hh hrest hr
  rw [hctx] at hmain
  exact hmain

def hdr_w10 : Str := "A77".toList

def rest_w10 : List Str := ["01-02-23 T1 1,00".toList]

def rec_w10 : PRecord :=
  ⟨"01-02-23".toList, "T1".toList, 1, 0, 0, 0, some "A77".toList, none,
   some "A77".toList⟩

theorem claim_C10_witness :
    (tokenize (strip hdr_w10) = ["A77".toList] ∧ isCodePat (strip hdr_w10) = true ∧
      (∀ l ∈ rest_w10, isCodePat (strip l) = false) ∧
      rec_w10 ∈ (parse_pembelian_tsv ([] ++ hdr_w10 :: rest_w10)).drop
        (parse_pembelian_tsv []).length) ∧
    (rec_w10.kode = some "A77".toList ∧ rec_w10.nama_produk = none ∧
      rec_w10.unit = some "A77".toList) :=
  ⟨⟨by decide, by decide, by decide, by decide⟩,
   claim_C10 [] hdr_w10 rest_w10 "A77".toList rec_w10 (by decide) (by decide)
     (by decide) (by decide)⟩
